import Mathlib

/-!
Shallow embedding of the sgr_macros parser/codegen front-end.

Sources embedded here:
- src/sgr/color.rs : named/indexed/any colors, ColorChange mixing, color pairs,
  the unified SgrColor grammar.
- src/sgr/rgb.rs   : RGB literal forms, hex string parsing, channel values.
- src/sgr/base.rs  : Output/Revert sigils, Behavior.
- src/sgr.rs       : SgrData::tokens closing-text computation.

Modelling conventions:
- Machine integers (u8, u32) are Nat with explicit bounds / `% 256` where the
  Rust type system enforces them.
- syn token streams are lists of `Token`; a Rust `Parse` impl becomes a
  function `List Token → Except SynError α × List Token` that returns the
  stream state after the attempt (syn buffers stay advanced over whatever a
  failing parser consumed before its error; fork-based speculation inspects
  the result of a run and discards its consumption).
- proc_macro2 spans are modelled as a `Nat` identifier carried by literal
  tokens; punctuation spans are 0.
- Rust f64 literal channels are modelled by exact rationals: the decimal
  literals relevant here (and the scale factor 255.0) are exactly
  representable, and `as u8` on an in-range non-negative f64 truncates,
  i.e. takes the floor.
-/

namespace SgrMacros

/-- Model of a `syn::Error`: source span of the offending token and message. -/
structure SynError where
  span : Nat
  msg : String
deriving Repr, DecidableEq

/-- Lexical tokens of the macro-invocation grammar (the token kinds the
parsers in src/sgr inspect). Literal tokens carry a span identifier. -/
inductive Token where
  | litStr (s : String) (span : Nat)
  | litInt (n : Nat) (span : Nat)
  | litFloat (q : ℚ) (span : Nat)
  | underscore
  | bang
  | star
  | semi
  | comma
  | kwIn
  | atSign
  | percentSign
  | poundSign
  | paren (inner : List Token)
  | ident (s : String)
deriving Repr

/-- Span of a token (`Span::call_site()`-like spans of punctuation are 0). -/
def Token.tokenSpan : Token → Nat
  | .litStr _ sp => sp
  | .litInt _ sp => sp
  | .litFloat _ sp => sp
  | _ => 0

/-- Model of `input.span()`: the span of the next token, 0 at end of input. -/
def streamSpan : List Token → Nat
  | [] => 0
  | t :: _ => t.tokenSpan

/-- Model of `Result::is_ok` on a parse outcome, as used by syn fork checks. -/
def exOk {α : Type} : Except SynError α → Bool
  | .ok _ => true
  | .error _ => false

/-! Constants from src/sgr/color.rs lines 5-9. -/

def COLOR_SET : Nat := 38
def COLOR_RESET : Nat := 39
def OFFSET_BG : Nat := 10
def OFFSET_BRIGHT : Nat := 60

/-- src/sgr/color.rs `color_bg`: add the background offset when `bg`. -/
def color_bg (color : Nat) (bg : Bool) : Nat :=
  if bg then color + OFFSET_BG else color

/-- src/sgr/color.rs `color_bright`: add the bright offset when `bright`. -/
def color_bright (color : Nat) (bright : Bool) : Nat :=
  if bright then color + OFFSET_BRIGHT else color

/-- src/sgr/color.rs `color_set`. -/
def color_set (bg : Bool) : Nat := color_bg COLOR_SET bg

/-- src/sgr/color.rs `color_reset`. -/
def color_reset (bg : Bool) : Nat := color_bg COLOR_RESET bg

/-- src/sgr/color.rs `ColorNamed` with its `repr(u8)` discriminants. -/
inductive ColorNamed where
  | black
  | red
  | green
  | yellow
  | blue
  | magenta
  | cyan
  | white
  | default
deriving Repr, DecidableEq

/-- The `as u8` value of a `ColorNamed` discriminant. -/
def ColorNamed.code : ColorNamed → Nat
  | .black => 30
  | .red => 31
  | .green => 32
  | .yellow => 33
  | .blue => 34
  | .magenta => 35
  | .cyan => 36
  | .white => 37
  | .default => COLOR_RESET

/-- src/sgr/color.rs `ColorBasic`. -/
structure ColorBasic where
  color : ColorNamed
  bright : Bool
deriving Repr, DecidableEq

/-- src/sgr/color.rs `ColorBasic::code`. -/
def ColorBasic.code (c : ColorBasic) (bg : Bool) : Nat :=
  color_bg (color_bright c.color.code c.bright) bg

/-- src/sgr/rgb.rs `Rgb`: four byte channels, alpha first. -/
structure Rgb where
  a : Nat
  r : Nat
  g : Nat
  b : Nat
deriving Repr, DecidableEq

/-- src/sgr/rgb.rs `From<u32> for Rgb`: big-endian byte decomposition. -/
def Rgb.ofU32 (word : Nat) : Rgb :=
  ⟨word / 2 ^ 24 % 256, word / 2 ^ 16 % 256, word / 2 ^ 8 % 256, word % 256⟩

/-- src/sgr/rgb.rs `From<Rgb> for u32`: big-endian byte recomposition. -/
def Rgb.toU32 (rgb : Rgb) : Nat :=
  rgb.a * 2 ^ 24 + rgb.r * 2 ^ 16 + rgb.g * 2 ^ 8 + rgb.b

/-- src/sgr/rgb.rs `accept_value`: a packed RGB word must fit in 24 bits. -/
def accept_value (value : Nat) : Except String Nat :=
  if value ≤ 0xFFFFFF then .ok value
  else .error "RGB color value exceeds 24 bits"

/-- src/sgr/rgb.rs `expand_rgb_rrggbb`: digit-double a 3-character shorthand.
The Rust code matches on the byte slice; for the hex-digit inputs this
function is applied to, bytes and characters coincide. -/
def expand_rgb_rrggbb (rgb : String) : Option String :=
  match rgb.toList with
  | [r, g, b] => some (String.mk [r, r, g, g, b, b])
  | _ => none

/-- Value of one hexadecimal digit character, as in `char::to_digit(16)`
(codepoint ranges 0-9, a-f, A-F). -/
def hexDigitVal (c : Char) : Option Nat :=
  if 48 ≤ c.toNat ∧ c.toNat ≤ 57 then some (c.toNat - 48)
  else if 97 ≤ c.toNat ∧ c.toNat ≤ 102 then some (c.toNat - 87)
  else if 65 ≤ c.toNat ∧ c.toNat ≤ 70 then some (c.toNat - 55)
  else none

/-- Accumulate hex digits left to right; `none` on a non-digit. -/
def hexValAux : List Char → Nat → Option Nat
  | [], acc => some acc
  | c :: cs, acc =>
    match hexDigitVal c with
    | some d => hexValAux cs (acc * 16 + d)
    | none => none

/-- Model of `u32::from_str_radix(s, 16)`: optional sign, then a nonempty
run of hex digits; overflow past u32::MAX is an error, and a negative sign
is only accepted for a zero value (checked_sub semantics on unsigned). -/
def fromStrRadix16 (s : String) : Option Nat :=
  match s.toList with
  | [] => none
  | c :: cs =>
    if c = '+' then
      match cs with
      | [] => none
      | _ =>
        match hexValAux cs 0 with
        | some n => if n ≤ 0xFFFFFFFF then some n else none
        | none => none
    else if c = '-' then
      match cs with
      | [] => none
      | _ =>
        match hexValAux cs 0 with
        | some 0 => some 0
        | _ => none
    else
      match hexValAux (c :: cs) 0 with
      | some n => if n ≤ 0xFFFFFFFF then some n else none
      | none => none

/-- ASCII lowercase mapping of one character, as `str::to_lowercase` acts on
the ASCII color names handled here. -/
def lowerChar (c : Char) : Char :=
  if 65 ≤ c.toNat ∧ c.toNat ≤ 90 then Char.ofNat (c.toNat + 32) else c

/-- Model of `str::to_lowercase` (ASCII range). -/
def toLowerStr (s : String) : String :=
  String.mk (s.toList.map lowerChar)

/-- ASCII whitespace test, as `str::trim` acts on the inputs here. -/
def isWsChar (c : Char) : Bool :=
  c.toNat = 32 ∨ c.toNat = 9 ∨ c.toNat = 10 ∨ c.toNat = 13

/-- Model of `str::trim`: drop whitespace from both ends. -/
def trimStr (s : String) : String :=
  String.mk (((s.toList.dropWhile isWsChar).reverse.dropWhile isWsChar).reverse)

/-- Drop an expected character sequence from the front of a list. -/
def dropPrefixChars : List Char → List Char → Option (List Char)
  | [], cs => some cs
  | _ :: _, [] => none
  | p :: ps, c :: cs => if c = p then dropPrefixChars ps cs else none

/-- Model of `str::strip_prefix` for the needles used in the source. -/
def dropPrefixStr (p s : String) : Option String :=
  (dropPrefixChars p.toList s.toList).map String.mk

/-- src/sgr/rgb.rs `FromStr for Rgb`: strip a `#`/`0x`/`0X` prefix, try the
3-digit shorthand expansion first, then a direct hex parse; a string without
a recognized prefix is an error. -/
def Rgb.fromStr (s : String) : Option Rgb :=
  match (dropPrefixStr "#" s).orElse
      (fun _ => (dropPrefixStr "0x" s).orElse (fun _ => dropPrefixStr "0X" s)) with
  | some number =>
    match expand_rgb_rrggbb number with
    | some rrggbb =>
      match fromStrRadix16 rrggbb with
      | some n => some (Rgb.ofU32 n)
      | none =>
        match fromStrRadix16 number with
        | some n => some (Rgb.ofU32 n)
        | none => none
    | none =>
      match fromStrRadix16 number with
      | some n => some (Rgb.ofU32 n)
      | none => none
  | none => none

/-- src/sgr/color.rs `Parse for ColorBasic`: a bare `_` is the default color;
otherwise a string literal, lowercased, with an optional `bright` prefix,
matched against the nine color names; anything else is an `invalid color`
error at the literal's span. -/
def parseColorBasic (ts : List Token) : Except SynError ColorBasic × List Token :=
  match ts with
  | .underscore :: rest => (.ok ⟨.default, false⟩, rest)
  | .litStr s sp :: rest =>
    let value := toLowerStr s
    let brightName : Bool × String :=
      match dropPrefixStr "bright" (trimStr value) with
      | some base => (true, base)
      | none => (false, value)
    let named : Option ColorNamed :=
      match trimStr brightName.2 with
      | "black" => some .black
      | "red" => some .red
      | "green" => some .green
      | "yellow" => some .yellow
      | "blue" => some .blue
      | "magenta" => some .magenta
      | "cyan" => some .cyan
      | "white" => some .white
      | "default" => some .default
      | _ => none
    match named with
    | some color => (.ok ⟨color, brightName.1⟩, rest)
    | none => (.error ⟨sp, "invalid color"⟩, rest)
  | _ => (.error ⟨streamSpan ts, "expected string literal"⟩, ts)

/-- src/sgr/color.rs `Parse for Indexed`: an integer literal parsed as `u8`. -/
def parseIndexed (ts : List Token) : Except SynError Nat × List Token :=
  match ts with
  | .litInt n sp :: rest =>
    if n ≤ 255 then (.ok n, rest)
    else (.error ⟨sp, "number too large to fit in target type"⟩, rest)
  | _ => (.error ⟨streamSpan ts, "expected integer literal"⟩, ts)

/-- src/sgr/rgb.rs `Parse for RgbNumber`: an integer literal parsed as `u8`,
or a float literal that must lie in `[0.0, 1.0]`, scaled by 255 and
truncated (`as u8`). -/
def parseRgbNumber (ts : List Token) : Except SynError Nat × List Token :=
  match ts with
  | .litInt n sp :: rest =>
    if n ≤ 255 then (.ok n, rest)
    else (.error ⟨sp, "number too large to fit in target type"⟩, rest)
  | .litFloat q sp :: rest =>
    if q < 0 then (.error ⟨sp, "RGB channel cannot be negative"⟩, rest)
    else if 1 < q then (.error ⟨sp, "RGB channel cannot exceed 1.0"⟩, rest)
    else (.ok (Int.toNat ⌊q * 255⌋), rest)
  | _ => (.error ⟨streamSpan ts, "expected float literal"⟩, ts)

/-- src/sgr/rgb.rs `Parse for Rgb`: a parenthesized channel triple, a string
literal handed to `FromStr` (whose failure is a `todo!()` panic, modelled
here as an error), or an integer literal parsed as `u32` and bounded by
`accept_value`. -/
def parseRgb (ts : List Token) : Except SynError Rgb × List Token :=
  match ts with
  | .paren inner :: rest =>
    let res : Except SynError Rgb :=
      match parseRgbNumber inner with
      | (.error e, _) => .error e
      | (.ok r, in1) =>
        match in1 with
        | .comma :: in2 =>
          match parseRgbNumber in2 with
          | (.error e, _) => .error e
          | (.ok g, in3) =>
            match in3 with
            | .comma :: in4 =>
              match parseRgbNumber in4 with
              | (.error e, _) => .error e
              | (.ok b, _) => .ok ⟨0, r, g, b⟩
            | _ => .error ⟨streamSpan in3, "expected comma"⟩
        | _ => .error ⟨streamSpan in1, "expected comma"⟩
    (res, rest)
  | .litStr s sp :: rest =>
    match Rgb.fromStr s with
    | some rgb => (.ok rgb, rest)
    | none => (.error ⟨sp, "not yet implemented"⟩, rest)
  | .litInt n sp :: rest =>
    if n ≤ 0xFFFFFFFF then
      match accept_value n with
      | .ok color => (.ok (Rgb.ofU32 color), rest)
      | .error text => (.error ⟨sp, text⟩, rest)
    else (.error ⟨sp, "number too large to fit in target type"⟩, rest)
  | _ => (.error ⟨streamSpan ts, "expected integer literal"⟩, ts)

/-- src/sgr/color.rs `ColorAny`. -/
inductive ColorAny where
  | basic (c : ColorBasic)
  | indexed (idx : Nat)
  | rgb (rgb : Rgb)
deriving Repr, DecidableEq

/-- src/sgr/color.rs `ColorAny::params`: the opening parameter text of one
side (`bg` selects the 40-series slot). -/
def ColorAny.params : ColorAny → Bool → String
  | .basic c, bg => toString (c.code bg)
  | .indexed idx, bg => toString (color_set bg) ++ ";5;" ++ toString idx
  | .rgb v, bg =>
    toString (color_set bg) ++ ";2;" ++ toString v.r ++ ";"
      ++ toString v.g ++ ";" ++ toString v.b

/-- src/sgr/color.rs `Parse for ColorAny`: ordered speculative attempt
Basic, then Indexed, then Rgb; the first two alternatives are checked on a
fork and only then run on the real stream. -/
def parseColorAny (ts : List Token) : Except SynError ColorAny × List Token :=
  if exOk (parseColorBasic ts).1 then
    match parseColorBasic ts with
    | (.ok c, ts1) => (.ok (.basic c), ts1)
    | (.error e, ts1) => (.error e, ts1)
  else if exOk (parseIndexed ts).1 then
    match parseIndexed ts with
    | (.ok idx, ts1) => (.ok (.indexed idx), ts1)
    | (.error e, ts1) => (.error e, ts1)
  else
    match parseRgb ts with
    | (.ok rgb, ts1) => (.ok (.rgb rgb), ts1)
    | (.error e, ts1) => (.error e, ts1)

/-- src/sgr/color.rs `ColorChange`. -/
inductive ColorChange where
  | set (color : ColorAny)
  | reset
  | noChange
deriving Repr, DecidableEq

/-- src/sgr/color.rs `ColorChange::mix`: combine the initial action of a side
with the requested revert action into the actual closing action. The Rust
match arms are reproduced in order; the final catch-all covers exactly the
remaining `None`-producing arms. -/
def ColorChange.mix : Option ColorChange → Option ColorChange → Option ColorChange
  | some (.set _), revert => revert
  | _, some (.set c) => some (.set c)
  | _, some .noChange => some .noChange
  | _, _ => none

/-- src/sgr/color.rs `ColorChange::params`. -/
def ColorChange.params : ColorChange → Bool → Option String
  | .set color, bg => some (color.params bg)
  | .reset, bg => some (toString (color_reset bg))
  | .noChange, _ => none

/-- src/sgr/color.rs `Parse for ColorChange`: `!` is an explicit no-op, a
parsable color is a Set, and anything else falls through to Reset (the
stream keeps whatever a failing color parse consumed, as syn buffers do). -/
def parseColorChange (ts : List Token) : Except SynError ColorChange × List Token :=
  match ts with
  | .bang :: rest => (.ok .noChange, rest)
  | _ =>
    match parseColorAny ts with
    | (.ok color, ts1) => (.ok (.set color), ts1)
    | (.error _, ts1) => (.ok .reset, ts1)

/-- src/sgr/color.rs `ColorSetPair`. -/
structure ColorSetPair where
  fg : Option ColorChange
  bg : Option ColorChange
deriving Repr, DecidableEq

/-- Model of `Vec::join(";")` on at most two parameter strings. -/
def joinSemi : List String → String
  | [] => ""
  | [s] => s
  | s :: rest => s ++ ";" ++ joinSemi rest

/-- src/sgr/color.rs `SgrCode for ColorSetPair::params`. -/
def ColorSetPair.params (p : ColorSetPair) : Option String :=
  match p.fg, p.bg with
  | none, none => none
  | some fg, none => fg.params false
  | none, some bg => bg.params true
  | some fg, some bg =>
    let colors := (fg.params false).toList ++ (bg.params true).toList
    let ps := joinSemi colors
    if ps = "" then none else some ps

/-- The second half of the non-`*` branch of `Parse for ColorSetPair`: the
optional `in`-prefixed background change and the emptiness check against
the starting span, given the already-computed foreground side. -/
def colorPairFinish (start : Nat) (fg : Option ColorChange) (ts1 : List Token) :
    Except SynError ColorSetPair × List Token :=
  match ts1 with
  | .kwIn :: rest1 =>
    match parseColorChange rest1 with
    | (.error e, ts2) => (.error e, ts2)
    | (.ok cbg, ts2) => (.ok ⟨fg, some cbg⟩, ts2)
  | _ =>
    if fg.isNone then (.error ⟨start, "empty color"⟩, ts1)
    else (.ok ⟨fg, none⟩, ts1)

/-- The non-`*` branch of `Parse for ColorSetPair`: an optional foreground
change (a plain Reset outcome is filtered to "absent"), then the background
and emptiness handling. -/
def parseColorSetPairTail (start : Nat) (ts : List Token) :
    Except SynError ColorSetPair × List Token :=
  let parsed := parseColorChange ts
  let fg : Option ColorChange :=
    match parsed.1 with
    | .ok c => if c = ColorChange.reset then none else some c
    | .error _ => none
  colorPairFinish start fg parsed.2

/-- src/sgr/color.rs `Parse for ColorSetPair`: a lone `*` resets both sides;
otherwise the optional-pair branch above; both sides absent is the
`empty color` error. -/
def parseColorSetPair (ts : List Token) : Except SynError ColorSetPair × List Token :=
  match ts with
  | .star :: rest => (.ok ⟨some .reset, some .reset⟩, rest)
  | _ => parseColorSetPairTail (streamSpan ts) ts

/-- src/sgr/color.rs `ColorRevertPair`. -/
inductive ColorRevertPair where
  | pair (fg bg : Option ColorChange)
  | resetAll
  | resetNone
deriving Repr, DecidableEq

/-- src/sgr/color.rs `ColorRevertPair::reset_either`. -/
def ColorRevertPair.reset_either : ColorRevertPair :=
  .pair (some .reset) (some .reset)

/-- src/sgr/color.rs `Parse for ColorRevertPair`: `!` reverts nothing, `*`
reverts everything, otherwise an optional per-side pair like the set pair
(but without the Reset filtering and without an emptiness check). -/
def parseColorRevertPair (ts : List Token) :
    Except SynError ColorRevertPair × List Token :=
  match ts with
  | .bang :: rest => (.ok .resetNone, rest)
  | .star :: rest => (.ok .resetAll, rest)
  | _ =>
    let parsed := parseColorChange ts
    let ts1 := parsed.2
    let fg : Option ColorChange :=
      match parsed.1 with
      | .ok c => some c
      | .error _ => none
    match ts1 with
    | .kwIn :: rest1 =>
      match parseColorChange rest1 with
      | (.error e, ts2) => (.error e, ts2)
      | (.ok cbg, ts2) => (.ok (.pair fg (some cbg)), ts2)
    | _ => (.ok (.pair fg none), ts1)

/-- src/sgr/color.rs `SgrCode for ColorRevertPair::params`. -/
def ColorRevertPair.params : ColorRevertPair → Option String
  | .pair none none => none
  | .pair (some fg) none => fg.params false
  | .pair none (some bg) => bg.params true
  | .pair (some fg) (some bg) =>
    let colors := (fg.params false).toList ++ (bg.params true).toList
    let ps := joinSemi colors
    if ps = "" then none else some ps
  | .resetAll => some "39;49"
  | .resetNone => none

/-- src/sgr/traits.rs `SgrCode::render`: an escape sequence when parameters
are present, empty text otherwise. -/
def renderCode : Option String → String
  | some params => "\x1B[" ++ params ++ "m"
  | none => ""

/-- src/sgr/base.rs `Output`. -/
inductive Output where
  | concat
  | constFormat
  | format
  | string
deriving Repr, DecidableEq

/-- src/sgr/base.rs `Output::needs_template`. -/
def Output.needs_template : Output → Bool
  | .concat => false
  | .constFormat => true
  | .format => true
  | .string => true

/-- src/sgr/base.rs `Output::has_sigil`. -/
def Output.has_sigil (o : Output) : Bool := o ≠ Output.concat

/-- src/sgr/base.rs `Parse for Output`. The `#` sigil is rejected when the
`const` cargo feature is disabled; `constFeature` models `cfg!`. -/
def parseOutput (constFeature : Bool) (ts : List Token) :
    Except SynError Output × List Token :=
  match ts with
  | .atSign :: rest => (.ok .string, rest)
  | .percentSign :: rest => (.ok .format, rest)
  | .poundSign :: rest =>
    if constFeature then (.ok .constFormat, rest)
    else (.error ⟨0, "mode sigil requires the \"const\" feature"⟩, rest)
  | _ => (.ok .concat, ts)

/-- src/sgr/base.rs `Revert`. -/
inductive Revert where
  | one
  | all
  | none
deriving Repr, DecidableEq

/-- src/sgr/base.rs `Revert::has_sigil`. -/
def Revert.has_sigil (r : Revert) : Bool := r ≠ Revert.one

/-- src/sgr/base.rs `Parse for Revert`. -/
def parseRevert (ts : List Token) : Except SynError Revert × List Token :=
  match ts with
  | .bang :: rest => (.ok .none, rest)
  | .star :: rest => (.ok .all, rest)
  | _ => (.ok .one, ts)

/-- src/sgr/base.rs `Behavior`. -/
structure Behavior where
  output : Output
  revert : Revert
deriving Repr, DecidableEq

/-- src/sgr/base.rs `Parse for Behavior`: output sigil, then revert sigil,
then an optional comma if either sigil was present. -/
def parseBehavior (constFeature : Bool) (ts : List Token) :
    Except SynError Behavior × List Token :=
  match parseOutput constFeature ts with
  | (.error e, ts1) => (.error e, ts1)
  | (.ok output, ts1) =>
    match parseRevert ts1 with
    | (.error e, ts2) => (.error e, ts2)
    | (.ok revert, ts2) =>
      let ts3 :=
        if output.has_sigil || revert.has_sigil then
          match ts2 with
          | .comma :: rest => rest
          | _ => ts2
        else ts2
      (.ok ⟨output, revert⟩, ts3)

/-- src/sgr/color.rs `SgrColor` (template kept as its string value). -/
structure SgrColorData where
  color_set : ColorSetPair
  output : Output
  template : Option String
  contents : List Token
  color_revert : ColorRevertPair
deriving Repr

/-- The content-accumulation loop of `Parse for SgrColor`: consume token
trees until the stream is exhausted or the next token is a `;`. -/
def takeContents : List Token → List Token × List Token
  | [] => ([], [])
  | t :: .semi :: rest => ([t], .semi :: rest)
  | t :: rest =>
    let tail := takeContents rest
    (t :: tail.1, tail.2)

/-- src/sgr/color.rs `Parse for SgrColor`: color pair, `;`, output sigil
(with optional comma), template when the output mode requires one, contents
up to a `;`, and an optional trailing revert pair defaulting to
`reset_either`. -/
def parseSgrColor (constFeature : Bool) (ts : List Token) :
    Except SynError SgrColorData × List Token :=
  match parseColorSetPair ts with
  | (.error e, ts1) => (.error e, ts1)
  | (.ok color_set, ts1) =>
    match ts1 with
    | .semi :: ts2 =>
      match parseOutput constFeature ts2 with
      | (.error e, ts3) => (.error e, ts3)
      | (.ok output, ts3) =>
        let ts4 :=
          if output.has_sigil then
            match ts3 with
            | .comma :: rest => rest
            | _ => ts3
          else ts3
        let step : Option String × Bool × List Token :=
          if output.needs_template then
            match ts4 with
            | .litStr t _ :: .comma :: r2 => (some t, true, r2)
            | .litStr t _ :: r => (some t, false, r)
            | _ => (some "\x7b\x7d", true, ts4)
          else (none, true, ts4)
        let taken := if step.2.1 then takeContents step.2.2 else ([], step.2.2)
        match taken.2 with
        | .semi :: ts7 =>
          match parseColorRevertPair ts7 with
          | (.error e, ts8) => (.error e, ts8)
          | (.ok cr, ts8) =>
            (.ok ⟨color_set, output, step.1, taken.1, cr⟩, ts8)
        | _ =>
          (.ok ⟨color_set, output, step.1, taken.1, ColorRevertPair.reset_either⟩,
            taken.2)
    | _ => (.error ⟨streamSpan ts1, "expected semicolon"⟩, ts1)

/-- src/sgr/color.rs `SgrData for SgrColor::fmt_closing`: mix each side of
the initial set against the revert pair; `*`/`!` revert forms pass through. -/
def SgrColorData.fmt_closing (d : SgrColorData) : ColorRevertPair :=
  match d.color_revert with
  | .pair fg bg =>
    .pair (ColorChange.mix d.color_set.fg fg) (ColorChange.mix d.color_set.bg bg)
  | other => other

/-- Text contribution of one content token inside the generated `concat!`
call; only literal tokens can appear there in a compiling expansion. -/
def Token.litText : Token → String
  | .litStr s _ => s
  | .litInt n _ => toString n
  | _ => ""

/-- Model of `concat!` over the accumulated content tokens. -/
def concatLitText : List Token → String
  | [] => ""
  | t :: rest => t.litText ++ concatLitText rest

/-- Final text of a Concat-mode `color!` invocation: opening escape,
concatenated literal contents, closing escape (src/sgr/traits.rs
`SgrData::tokens`, Concat arm, on literal contents). -/
def SgrColorData.renderConcat (d : SgrColorData) : String :=
  renderCode d.color_set.params ++ concatLitText d.contents
    ++ renderCode d.fmt_closing.params

/-- src/sgr/base.rs `SgrBase` (template kept as its string value). -/
structure SgrBaseData where
  behavior : Behavior
  template : Option String
  contents : List Token
deriving Repr

/-- src/sgr.rs `SgrFormat`: a parsed base plus resolved opening and closing
parameter strings. -/
structure SgrFormatData where
  base : SgrBaseData
  opening : String
  closing : String
deriving Repr

/-- The `sgr!` macro of src/sgr.rs: `ESC[<param>m`, the parameter optional. -/
def sgrSeq : Option String → String
  | some param => "\x1B[" ++ param ++ "m"
  | none => "\x1B[m"

/-- Opening text computed by `SgrData::tokens` (src/sgr.rs line 45). -/
def SgrFormatData.fmtText (d : SgrFormatData) : String :=
  sgrSeq (some d.opening)

/-- Closing text computed by `SgrData::tokens` (src/sgr.rs lines 46-50). -/
def SgrFormatData.endText (d : SgrFormatData) : String :=
  match d.base.behavior.revert with
  | .one => sgrSeq (some d.closing)
  | .all => sgrSeq none
  | .none => ""

/-- The composed template of the Format/String/ConstFormat arms of
`SgrData::tokens`: opening text, template text, closing text. -/
def SgrFormatData.tempFmt (d : SgrFormatData) (template : String) : String :=
  d.fmtText ++ template ++ d.endText

/-- Generated text of a Concat-mode invocation with literal contents. -/
def SgrFormatData.renderConcat (d : SgrFormatData) : String :=
  d.fmtText ++ concatLitText d.base.contents ++ d.endText

/-- The five single-token mode sigils of src/sgr/base.rs. -/
def Token.isSigil : Token → Bool
  | .atSign => true
  | .percentSign => true
  | .poundSign => true
  | .bang => true
  | .star => true
  | _ => false

/-- Tokens of the invocation `color!("green"; "t"; in "red")`. -/
def exGreenInRed : List Token :=
  [.litStr "green" 0, .semi, .litStr "t" 0, .semi, .kwIn, .litStr "red" 0]

/-- Tokens of the invocation `color!("green"; "t")`. -/
def exGreenNoRevert : List Token :=
  [.litStr "green" 0, .semi, .litStr "t" 0]

/-- Tokens of the channel tuple `(1.0, 0.5, 0)`. -/
def exFloatTuple : List Token :=
  [.paren [.litFloat 1 0, .comma, .litFloat (1 / 2) 0, .comma, .litInt 0 0]]

/-- Tokens of the channel tuple `(255, 127, 0)`. -/
def exIntTuple : List Token :=
  [.paren [.litInt 255 0, .comma, .litInt 127 0, .comma, .litInt 0 0]]

instance {ε α : Type} [DecidableEq ε] [DecidableEq α] : DecidableEq (Except ε α) :=
  fun a b =>
  match a, b with
  | .ok x, .ok y =>
    if h : x = y then .isTrue (by rw [h])
    else .isFalse (by intro hc; cases hc; exact h rfl)
  | .error x, .error y =>
    if h : x = y then .isTrue (by rw [h])
    else .isFalse (by intro hc; cases hc; exact h rfl)
  | .ok _, .error _ => .isFalse (by intro hc; cases hc)
  | .error _, .ok _ => .isFalse (by intro hc; cases hc)

/-! Helper lemmas shared by the claim theorems. -/

lemma parseRevert_isOk (ts : List Token) : ∃ r ts', parseRevert ts = (.ok r, ts') := by
  rcases ts with _ | ⟨t, rest⟩
  · exact ⟨_, _, rfl⟩
  · cases t <;> exact ⟨_, _, rfl⟩

lemma parseColorChange_isOk (ts : List Token) :
    ∃ c ts', parseColorChange ts = (.ok c, ts') := by
  unfold parseColorChange
  split
  · exact ⟨_, _, rfl⟩
  · split <;> exact ⟨_, _, rfl⟩

lemma colorPairFinish_error (start : Nat) (fg : Option ColorChange)
    (ts1 : List Token) (e : SynError) (ts' : List Token)
    (h : colorPairFinish start fg ts1 = (.error e, ts')) :
    e = ⟨start, "empty color"⟩ := by
  unfold colorPairFinish at h
  split at h
  · rename_i rest1
    obtain ⟨c2, ts2, hP2⟩ := parseColorChange_isOk rest1
    rw [hP2] at h
    exact absurd h (by simp)
  · cases fg with
    | none =>
      rw [if_pos (show (Option.none : Option ColorChange).isNone = true from rfl)] at h
      injection h with h1 h2
      injection h1 with h1
      exact h1.symm
    | some c =>
      rw [if_neg (by simp)] at h
      exact absurd h (by simp)

lemma colorPairFinish_ok (start : Nat) (fg : Option ColorChange)
    (ts1 : List Token) (p : ColorSetPair) (ts' : List Token)
    (h : colorPairFinish start fg ts1 = (.ok p, ts')) :
    p.fg.isSome ∨ p.bg.isSome := by
  unfold colorPairFinish at h
  split at h
  · rename_i rest1
    obtain ⟨c2, ts2, hP2⟩ := parseColorChange_isOk rest1
    rw [hP2] at h
    injection h with h1 h2
    injection h1 with h1
    rw [← h1]
    right
    rfl
  · cases fg with
    | none =>
      rw [if_pos (show (Option.none : Option ColorChange).isNone = true from rfl)] at h
      exact absurd h (by simp)
    | some c =>
      rw [if_neg (by simp)] at h
      injection h with h1 h2
      injection h1 with h1
      rw [← h1]
      left
      rfl

lemma parseColorSetPairTail_error (start : Nat) (ts : List Token) (e : SynError)
    (ts' : List Token) (h : parseColorSetPairTail start ts = (.error e, ts')) :
    e = ⟨start, "empty color"⟩ := by
  obtain ⟨c, ts1, hP⟩ := parseColorChange_isOk ts
  unfold parseColorSetPairTail at h
  rw [hP] at h
  exact colorPairFinish_error _ _ _ _ _ h

lemma parseColorSetPairTail_ok (start : Nat) (ts : List Token) (p : ColorSetPair)
    (ts' : List Token) (h : parseColorSetPairTail start ts = (.ok p, ts')) :
    p.fg.isSome ∨ p.bg.isSome := by
  obtain ⟨c, ts1, hP⟩ := parseColorChange_isOk ts
  unfold parseColorSetPairTail at h
  rw [hP] at h
  exact colorPairFinish_ok _ _ _ _ _ h

lemma parseColorSetPair_eq_tail (ts : List Token)
    (hs : ts.head? ≠ some Token.star) :
    parseColorSetPair ts = parseColorSetPairTail (streamSpan ts) ts := by
  rcases ts with _ | ⟨t, rest⟩
  · rfl
  · cases t <;> first | rfl | (exact absurd rfl hs)

lemma hexDigitVal_lt_16 {c : Char} {x : Nat} (h : hexDigitVal c = some x) :
    x < 16 := by
  unfold hexDigitVal at h
  split_ifs at h with h1 h2 h3 <;> (injection h with h'; omega)

lemma hexDigitVal_range {c : Char} {x : Nat} (h : hexDigitVal c = some x) :
    (48 ≤ c.toNat ∧ c.toNat ≤ 57) ∨ (97 ≤ c.toNat ∧ c.toNat ≤ 102)
      ∨ (65 ≤ c.toNat ∧ c.toNat ≤ 70) := by
  unfold hexDigitVal at h
  split_ifs at h with h1 h2 h3
  · exact Or.inl h1
  · exact Or.inr (Or.inl h2)
  · exact Or.inr (Or.inr h3)

lemma hexDigitVal_ne_plus {c : Char} {x : Nat} (h : hexDigitVal c = some x) :
    c ≠ '+' := by
  rintro rfl
  have hr := hexDigitVal_range h
  have h43 : ('+').toNat = 43 := rfl
  rw [h43] at hr
  omega

lemma hexDigitVal_ne_minus {c : Char} {x : Nat} (h : hexDigitVal c = some x) :
    c ≠ '-' := by
  rintro rfl
  have hr := hexDigitVal_range h
  have h45 : ('-').toNat = 45 := rfl
  rw [h45] at hr
  omega

lemma parseRgbNumber_float (q : ℚ) (sp : Nat) (rest : List Token)
    (hq0 : 0 ≤ q) (hq1 : q ≤ 1) :
    parseRgbNumber (.litFloat q sp :: rest) = (.ok (Int.toNat ⌊q * 255⌋), rest) := by
  simp [parseRgbNumber, not_lt.mpr hq0, not_lt.mpr hq1]

lemma floor_one_mul_255 : Int.toNat ⌊(1 : ℚ) * 255⌋ = 255 := by
  rw [one_mul, show ((255 : ℚ)) = ((255 : ℤ) : ℚ) by norm_num, Int.floor_intCast]
  rfl

lemma floor_half_mul_255 : Int.toNat ⌊((1 : ℚ) / 2) * 255⌋ = 127 := by
  rw [show (⌊((1 : ℚ) / 2) * 255⌋ : ℤ) = 127 by
    rw [Int.floor_eq_iff]
    norm_num]
  rfl

lemma round_half_mul_255 : round (((1 : ℚ) / 2) * 255) = 128 := by
  rw [round_eq]
  rw [show ((1 : ℚ) / 2) * 255 + 1 / 2 = 128 by norm_num]
  exact Int.floor_intCast 128

/-- C1: revert mixing for the unified `color!` grammar. With the default
revert pair (`some Reset` on both sides, used when no revert clause is
supplied), a side whose initial action was a Set mixes to Reset (closing
parameter 39 for foreground, 49 for background), while a side whose initial
action was not a Set mixes to nothing even under a Reset request; an
explicit revert color always overrides, and a per-side `!` always mixes to
NoChange, which contributes no closing parameter. Concretely,
`color!("green"; "t")` renders `ESC[32m t ESC[39m` and
`color!("green"; "t"; in "red")` renders `ESC[32m t ESC[39;41m`. -/
theorem color_mix_revert_closing :
    (∀ c, ColorChange.mix (some (.set c)) (some .reset) = some ColorChange.reset)
    ∧ ColorChange.params .reset false = some ("39")
    ∧ ColorChange.params .reset true = some ("49")
    ∧ ColorChange.mix Option.none (some .reset) = Option.none
    ∧ ColorChange.mix (some .reset) (some .reset) = Option.none
    ∧ ColorChange.mix (some .noChange) (some .reset) = Option.none
    ∧ (∀ x c, ColorChange.mix x (some (.set c)) = some (.set c))
    ∧ (∀ x, ColorChange.mix x (some .noChange) = some ColorChange.noChange)
    ∧ ColorChange.params .noChange false = Option.none
    ∧ ColorChange.params .noChange true = Option.none
    ∧ (parseSgrColor false exGreenNoRevert).1.map SgrColorData.renderConcat
        = .ok ("\x1B[32mt\x1B[39m")
    ∧ (parseSgrColor false exGreenInRed).1.map SgrColorData.renderConcat
        = .ok ("\x1B[32mt\x1B[39;41m") := by
  refine ⟨fun c => rfl, rfl, rfl, rfl, rfl, rfl, ?_, ?_, rfl, rfl, by decide, by decide⟩
  · rintro (_ | x) c
    · rfl
    · cases x <;> rfl
  · rintro (_ | x)
    · rfl
    · cases x <;> rfl

/-- C2: ColorAny resolution order. A bare integer literal up to 255 parses
as Indexed, a bare integer literal in [256, 0xFFFFFF] parses as Rgb, and a
quoted string literal never parses as Indexed. -/
theorem colorany_resolution_order :
    (∀ n sp rest, n ≤ 255 →
      parseColorAny (.litInt n sp :: rest) = (.ok (.indexed n), rest))
    ∧ (∀ n sp rest, 256 ≤ n → n ≤ 0xFFFFFF →
      parseColorAny (.litInt n sp :: rest) = (.ok (.rgb (Rgb.ofU32 n)), rest))
    ∧ (∀ s sp rest idx,
        (parseColorAny (.litStr s sp :: rest)).1 ≠ .ok (.indexed idx)) := by
  refine ⟨?_, ?_, ?_⟩
  · intro n sp rest h
    simp [parseColorAny, parseColorBasic, parseIndexed, exOk, h]
  · intro n sp rest h1 h2
    have hn : ¬ n ≤ 255 := by omega
    have hn4 : n ≤ 0xFFFFFFFF := by omega
    simp [parseColorAny, parseColorBasic, parseIndexed, parseRgb, exOk,
      accept_value, hn, hn4, h2]
  · intro s sp rest idx
    by_cases hB : exOk (parseColorBasic (.litStr s sp :: rest)).1 = true
    · rcases hE : parseColorBasic (.litStr s sp :: rest) with ⟨res, ts1⟩
      cases res with
      | ok c => simp [parseColorAny, hE, hB, exOk]
      | error e =>
        rw [hE] at hB
        simp [exOk] at hB
    · have hI : exOk (parseIndexed (.litStr s sp :: rest)).1 = false := rfl
      rcases hR : parseRgb (.litStr s sp :: rest) with ⟨res, ts1⟩
      cases res <;> simp [parseColorAny, hB, hI, hR]

/-- Witness for C2 at the literals 173 and 300. -/
theorem colorany_resolution_order_witness :
    parseColorAny [Token.litInt 173 0] = (.ok (.indexed 173), [])
    ∧ parseColorAny [Token.litInt 300 0] = (.ok (.rgb (Rgb.ofU32 300)), []) :=
  ⟨colorany_resolution_order.1 173 0 [] (by decide),
   colorany_resolution_order.2.1 300 0 [] (by decide) (by decide)⟩

/-- C3: 3-digit hex shorthand expands by digit doubling, so `"#RGB"` and
`"0xRGB"` parse to exactly the same Rgb as the doubled 6-digit forms. -/
theorem rgb_shorthand_digit_doubling (d1 d2 d3 : Char)
    (h1 : (hexDigitVal d1).isSome) (h2 : (hexDigitVal d2).isSome)
    (h3 : (hexDigitVal d3).isSome) :
    Rgb.fromStr (String.mk ['#', d1, d2, d3])
      = Rgb.fromStr (String.mk ['#', d1, d1, d2, d2, d3, d3])
    ∧ Rgb.fromStr (String.mk ['0', 'x', d1, d2, d3])
      = Rgb.fromStr (String.mk ['0', 'x', d1, d1, d2, d2, d3, d3]) := by
  obtain ⟨x1, hx1⟩ := Option.isSome_iff_exists.mp h1
  obtain ⟨x2, hx2⟩ := Option.isSome_iff_exists.mp h2
  obtain ⟨x3, hx3⟩ := Option.isSome_iff_exists.mp h3
  have b1 := hexDigitVal_lt_16 hx1
  have b2 := hexDigitVal_lt_16 hx2
  have b3 := hexDigitVal_lt_16 hx3
  have ne1p := hexDigitVal_ne_plus hx1
  have ne1m := hexDigitVal_ne_minus hx1
  obtain ⟨v, hv, hvle⟩ : ∃ v, hexValAux [d1, d1, d2, d2, d3, d3] 0 = some v
      ∧ v ≤ 0xFFFFFFFF := by
    simp only [hexValAux, hx1, hx2, hx3]
    exact ⟨_, rfl, by omega⟩
  have hr6 : fromStrRadix16 (String.mk [d1, d1, d2, d2, d3, d3]) = some v := by
    unfold fromStrRadix16
    simp only [String.toList]
    rw [if_neg ne1p, if_neg ne1m, hv]
    simp [hvle]
  have hexp : expand_rgb_rrggbb (String.mk [d1, d2, d3])
      = some (String.mk [d1, d1, d2, d2, d3, d3]) := rfl
  have hexp6 : expand_rgb_rrggbb (String.mk [d1, d1, d2, d2, d3, d3]) = none := rfl
  constructor
  · have hdpL : dropPrefixStr ("#") (String.mk ['#', d1, d2, d3])
        = some (String.mk [d1, d2, d3]) := by
      simp [dropPrefixStr, dropPrefixChars, String.toList]
    have hdpR : dropPrefixStr ("#") (String.mk ['#', d1, d1, d2, d2, d3, d3])
        = some (String.mk [d1, d1, d2, d2, d3, d3]) := by
      simp [dropPrefixStr, dropPrefixChars, String.toList]
    simp only [Rgb.fromStr, hdpL, hdpR, Option.orElse, hexp, hexp6, hr6]
  · have hne0 : ('0' : Char) ≠ '#' := by decide
    have hdpL0 : dropPrefixStr ("#") (String.mk ['0', 'x', d1, d2, d3]) = none := by
      simp [dropPrefixStr, dropPrefixChars, String.toList, hne0]
    have hdpR0 : dropPrefixStr ("#") (String.mk ['0', 'x', d1, d1, d2, d2, d3, d3])
        = none := by
      simp [dropPrefixStr, dropPrefixChars, String.toList, hne0]
    have hdpLx : dropPrefixStr ("0x") (String.mk ['0', 'x', d1, d2, d3])
        = some (String.mk [d1, d2, d3]) := by
      simp [dropPrefixStr, dropPrefixChars, String.toList]
    have hdpRx : dropPrefixStr ("0x") (String.mk ['0', 'x', d1, d1, d2, d2, d3, d3])
        = some (String.mk [d1, d1, d2, d2, d3, d3]) := by
      simp [dropPrefixStr, dropPrefixChars, String.toList]
    simp only [Rgb.fromStr, hdpL0, hdpR0, hdpLx, hdpRx, Option.orElse,
      hexp, hexp6, hr6]

/-- Witness for C3 at the shorthand `"#ABC"` (and `"0xABC"`). -/
theorem rgb_shorthand_digit_doubling_witness :
    Rgb.fromStr (String.mk ['#', 'A', 'B', 'C'])
      = Rgb.fromStr (String.mk ['#', 'A', 'A', 'B', 'B', 'C', 'C'])
    ∧ Rgb.fromStr (String.mk ['0', 'x', 'A', 'B', 'C'])
      = Rgb.fromStr (String.mk ['0', 'x', 'A', 'A', 'B', 'B', 'C', 'C']) :=
  rgb_shorthand_digit_doubling 'A' 'B' 'C' (by decide) (by decide) (by decide)

/-- Counterexample for C4 as stated: at the float channel 0.5 the code
yields the byte 127 (truncation), while rounding 0.5 * 255 = 127.5 would
yield 128, so the byte is not `round(f * 255)`. -/
theorem rgb_float_round_counterexample :
    (parseRgbNumber [.litFloat (1 / 2) 0]).1 = .ok 127
    ∧ (parseRgbNumber [.litFloat (1 / 2) 0]).1
        ≠ .ok (Int.toNat (round ((1 / 2 : ℚ) * 255))) := by
  have hv : (parseRgbNumber [.litFloat (1 / 2) 0]).1 = .ok 127 := by
    rw [parseRgbNumber_float (1 / 2) 0 [] (by norm_num) (by norm_num)]
    rw [show (((.ok (Int.toNat ⌊((1 : ℚ) / 2) * 255⌋) : Except SynError Nat),
        ([] : List Token)).1) = .ok (Int.toNat ⌊((1 : ℚ) / 2) * 255⌋) from rfl]
    rw [floor_half_mul_255]
  refine ⟨hv, ?_⟩
  rw [hv, round_half_mul_255]
  simp

/-- C4 (amended): a float channel in [0, 1] produces the byte
`trunc(f * 255)` (the floor, since the value is non-negative), and the
float tuple `(1.0, 0.5, 0)` parses to the same Rgb as `(255, 127, 0)`. -/
theorem rgb_float_channel_truncates (q : ℚ) (sp : Nat) (rest : List Token)
    (hq0 : 0 ≤ q) (hq1 : q ≤ 1) :
    parseRgbNumber (.litFloat q sp :: rest) = (.ok (Int.toNat ⌊q * 255⌋), rest)
    ∧ (parseRgb exFloatTuple).1 = (parseRgb exIntTuple).1 := by
  refine ⟨parseRgbNumber_float q sp rest hq0 hq1, ?_⟩
  have f1 : ∀ r, parseRgbNumber (Token.litFloat 1 0 :: r) = (.ok 255, r) := by
    intro r
    rw [parseRgbNumber_float 1 0 r zero_le_one le_rfl, floor_one_mul_255]
  have f2 : ∀ r, parseRgbNumber (Token.litFloat (1 / 2) 0 :: r) = (.ok 127, r) := by
    intro r
    rw [parseRgbNumber_float (1 / 2) 0 r (by norm_num) (by norm_num),
      floor_half_mul_255]
  have i255 : ∀ r, parseRgbNumber (Token.litInt 255 0 :: r) = (.ok 255, r) := by
    intro r
    simp [parseRgbNumber]
  have i127 : ∀ r, parseRgbNumber (Token.litInt 127 0 :: r) = (.ok 127, r) := by
    intro r
    simp [parseRgbNumber]
  have i0 : ∀ r, parseRgbNumber (Token.litInt 0 0 :: r) = (.ok 0, r) := by
    intro r
    simp [parseRgbNumber]
  simp only [exFloatTuple, exIntTuple, parseRgb, f1, f2, i255, i127, i0]

/-- Witness for C4 (amended) at the float channel 1.0. -/
theorem rgb_float_channel_truncates_witness :
    parseRgbNumber [.litFloat 1 0] = (.ok (Int.toNat ⌊(1 : ℚ) * 255⌋), [])
    ∧ (parseRgb exFloatTuple).1 = (parseRgb exIntTuple).1 :=
  rgb_float_channel_truncates 1 0 [] zero_le_one le_rfl

/-- Counterexample for C5 as stated: the literal 0x100000000 (above
u32::MAX) is rejected by the u32 literal parse with its overflow message,
not with "RGB color value exceeds 24 bits". -/
theorem rgb_overflow_message_counterexample :
    (parseRgb [.litInt 4294967296 5]).1
      = .error ⟨5, "number too large to fit in target type"⟩
    ∧ (⟨5, "number too large to fit in target type"⟩ : SynError)
        ≠ ⟨5, "RGB color value exceeds 24 bits"⟩ := by
  constructor
  · rfl
  · decide

/-- C5 (amended): a bare integer literal parses as Rgb exactly when it is
at most 0xFFFFFF; a larger value up to u32::MAX is rejected with
"RGB color value exceeds 24 bits" at the literal's span, while a value
above u32::MAX is rejected by the u32 parse with its overflow message; a
float channel below 0 or above 1 is rejected with the message naming the
violated bound, at the literal's span. -/
theorem rgb_range_errors (n : Nat) (q : ℚ) (sp : Nat) (rest : List Token) :
    (n ≤ 0xFFFFFF → parseRgb (.litInt n sp :: rest) = (.ok (Rgb.ofU32 n), rest))
    ∧ (0xFFFFFF < n → n ≤ 0xFFFFFFFF →
        parseRgb (.litInt n sp :: rest)
          = (.error ⟨sp, "RGB color value exceeds 24 bits"⟩, rest))
    ∧ (0xFFFFFFFF < n →
        parseRgb (.litInt n sp :: rest)
          = (.error ⟨sp, "number too large to fit in target type"⟩, rest))
    ∧ (q < 0 → parseRgbNumber (.litFloat q sp :: rest)
          = (.error ⟨sp, "RGB channel cannot be negative"⟩, rest))
    ∧ (1 < q → parseRgbNumber (.litFloat q sp :: rest)
          = (.error ⟨sp, "RGB channel cannot exceed 1.0"⟩, rest)) := by
  refine ⟨?_, ?_, ?_, ?_, ?_⟩
  · intro h
    have h4 : n ≤ 0xFFFFFFFF := by omega
    simp [parseRgb, accept_value, h, h4]
  · intro hlo hhi
    have h24 : ¬ n ≤ 0xFFFFFF := by omega
    simp [parseRgb, accept_value, h24, hhi]
  · intro h
    have h4 : ¬ n ≤ 0xFFFFFFFF := by omega
    simp [parseRgb, h4]
  · intro h
    simp [parseRgbNumber, h]
  · intro h
    have h0 : ¬ q < 0 := not_lt.mpr (by linarith)
    simp [parseRgbNumber, h0, h]

/-- Witness for C5 (amended) at 0x420311 and 0x1000000. -/
theorem rgb_range_errors_witness :
    parseRgb [.litInt 0x420311 3] = (.ok (Rgb.ofU32 0x420311), [])
    ∧ parseRgb [.litInt 0x1000000 3]
        = (.error ⟨3, "RGB color value exceeds 24 bits"⟩, []) :=
  ⟨(rgb_range_errors 0x420311 0 3 []).1 (by decide),
   (rgb_range_errors 0x1000000 0 3 []).2.1 (by decide) (by decide)⟩

/-- C6: the closing text of SgrData::tokens is the bare `ESC[m` for revert
mode All, the empty string for revert mode None, and `ESC[<closing>m` for
revert mode One, independently of the opening parameter string. -/
theorem revert_mode_closing_text (d : SgrFormatData) (s : String) :
    (d.base.behavior.revert = Revert.all → d.endText = "\x1B[m")
    ∧ (d.base.behavior.revert = Revert.none → d.endText = "")
    ∧ (d.base.behavior.revert = Revert.one →
        d.endText = "\x1B[" ++ d.closing ++ "m")
    ∧ SgrFormatData.endText ⟨d.base, s, d.closing⟩ = d.endText := by
  rcases d with ⟨base, opening, closing⟩
  rcases hb : base.behavior.revert <;>
    simp [SgrFormatData.endText, sgrSeq, hb]

/-- Witness for C6 at a concrete All-revert invocation. -/
theorem revert_mode_closing_text_witness :
    SgrFormatData.endText ⟨⟨⟨.concat, .all⟩, Option.none, []⟩, "32", "39"⟩
      = "\x1B[m" :=
  (revert_mode_closing_text ⟨⟨⟨.concat, .all⟩, Option.none, []⟩, "32", "39"⟩
    ("99")).1 rfl

/-- Counterexample for C7 as stated: with the `const` feature disabled, the
`#` output sigil makes Behavior parsing return an error, so sigil parsing
is not total on every token stream. -/
theorem behavior_const_sigil_counterexample :
    (parseBehavior false [Token.poundSign]).1
      = .error ⟨0, "mode sigil requires the \"const\" feature"⟩ := rfl

/-- C7 (amended): Revert parsing is total; Behavior parsing is total
whenever the `const` feature is enabled, and total without it on any
stream not beginning with `#`; a stream whose first token is no sigil
parses to the defaults Concat and One without consuming anything. -/
theorem behavior_sigils_total (cf : Bool) (ts : List Token) :
    exOk (parseBehavior true ts).1 = true
    ∧ exOk (parseRevert ts).1 = true
    ∧ ((∀ rest, ts ≠ Token.poundSign :: rest) → exOk (parseBehavior cf ts).1 = true)
    ∧ ((∀ t, ts.head? = some t → t.isSigil = false) →
        parseBehavior cf ts = (.ok ⟨.concat, .one⟩, ts)) := by
  refine ⟨?_, ?_, ?_, ?_⟩
  · rcases ts with _ | ⟨t, rest⟩
    · rfl
    · cases t <;>
        first
          | rfl
          | (obtain ⟨r, ts', hR⟩ := parseRevert_isOk rest
             simp [parseBehavior, parseOutput, hR, exOk])
  · rcases ts with _ | ⟨t, rest⟩
    · rfl
    · cases t <;> rfl
  · intro h
    rcases ts with _ | ⟨t, rest⟩
    · rfl
    · cases t <;>
        first
          | rfl
          | (exact absurd rfl (h rest))
          | (obtain ⟨r, ts', hR⟩ := parseRevert_isOk rest
             simp [parseBehavior, parseOutput, hR, exOk])
  · intro h
    rcases ts with _ | ⟨t, rest⟩
    · rfl
    · cases t <;> first | rfl | exact absurd (h _ rfl) (by decide)

/-- Witness for C7 (amended) at a non-sigil head token. -/
theorem behavior_sigils_total_witness :
    parseBehavior false [Token.ident "x"] = (.ok ⟨.concat, .one⟩, [Token.ident "x"]) :=
  (behavior_sigils_total false [Token.ident "x"]).2.2.2
    (by intro t ht; simp at ht; subst ht; rfl)

/-- C8: parsing a color-set pair only ever fails with the `empty color`
error (at the pair's starting span); a successful non-`*` parse always has
at least one side present, and the lone `*` sigil yields Reset on both
sides. The empty stream is a concrete failing instance. -/
theorem colorsetpair_empty_color (ts : List Token) (p : ColorSetPair)
    (e : SynError) (ts' : List Token) :
    (∀ rest, parseColorSetPair (Token.star :: rest)
        = (.ok ⟨some .reset, some .reset⟩, rest))
    ∧ (parseColorSetPair ts = (.error e, ts') → e = ⟨streamSpan ts, "empty color"⟩)
    ∧ (parseColorSetPair ts = (.ok p, ts') → p.fg.isSome ∨ p.bg.isSome)
    ∧ parseColorSetPair [] = (.error ⟨0, "empty color"⟩, []) := by
  refine ⟨fun rest => rfl, ?_, ?_, rfl⟩
  · intro h
    by_cases hs : ts.head? = some Token.star
    · rcases ts with _ | ⟨t, rest⟩
      · simp at hs
      · simp at hs
        subst hs
        exact absurd h (by simp [parseColorSetPair])
    · rw [parseColorSetPair_eq_tail ts hs] at h
      exact parseColorSetPairTail_error _ _ _ _ h
  · intro h
    by_cases hs : ts.head? = some Token.star
    · rcases ts with _ | ⟨t, rest⟩
      · simp at hs
      · simp at hs
        subst hs
        have h2 : (Except.ok (⟨some .reset, some .reset⟩ : ColorSetPair) :
            Except SynError ColorSetPair) = Except.ok p := congrArg Prod.fst h
        injection h2 with h3
        rw [← h3]
        left
        rfl
    · rw [parseColorSetPair_eq_tail ts hs] at h
      exact parseColorSetPairTail_ok _ _ _ _ h

/-- Witness for C8 at the empty stream. -/
theorem colorsetpair_empty_color_witness :
    (⟨0, "empty color"⟩ : SynError) = ⟨streamSpan [], "empty color"⟩ :=
  (colorsetpair_empty_color [] ⟨Option.none, Option.none⟩ ⟨0, "empty color"⟩ []).2.1
    rfl

/-- C9: the conversions between u32 words and Rgb are mutually inverse on
all 32-bit values, carrying the alpha byte through unchanged. -/
theorem rgb_u32_roundtrip (w : Nat) (r : Rgb) (hw : w < 2 ^ 32)
    (ha : r.a ≤ 255) (hr : r.r ≤ 255) (hg : r.g ≤ 255) (hb : r.b ≤ 255) :
    Rgb.toU32 (Rgb.ofU32 w) = w ∧ Rgb.ofU32 (Rgb.toU32 r) = r := by
  constructor
  · simp only [Rgb.ofU32, Rgb.toU32]
    omega
  · rcases r with ⟨a, rr, g, b⟩
    simp only [Rgb.ofU32, Rgb.toU32, Rgb.mk.injEq] at *
    refine ⟨?_, ?_, ?_, ?_⟩ <;> omega

/-- Witness for C9 at the word 0xAABBCCDD (nonzero alpha byte). -/
theorem rgb_u32_roundtrip_witness :
    Rgb.toU32 (Rgb.ofU32 0xAABBCCDD) = 0xAABBCCDD
    ∧ Rgb.ofU32 (Rgb.toU32 ⟨0xAA, 0xBB, 0xCC, 0xDD⟩) = ⟨0xAA, 0xBB, 0xCC, 0xDD⟩ :=
  rgb_u32_roundtrip 0xAABBCCDD ⟨0xAA, 0xBB, 0xCC, 0xDD⟩ (by decide) (by decide)
    (by decide) (by decide) (by decide)

/-- C10: ColorBasic parsing accepts a bare `_` token and yields the Default
color with the bright flag off, whose SGR code is 39 in foreground position
and 49 in background position. -/
theorem colorbasic_underscore_default (rest : List Token) :
    parseColorBasic (Token.underscore :: rest) = (.ok ⟨.default, false⟩, rest)
    ∧ ColorBasic.code ⟨.default, false⟩ false = 39
    ∧ ColorBasic.code ⟨.default, false⟩ true = 49 :=
  ⟨rfl, rfl, rfl⟩

end SgrMacros
